import Mathlib

/-!
Shallow embedding of the print-dispatch, label-rendering and print-job-queue
core of the Breast_Milk_Tracker repository (backend/server.js and
backend/agent.js), together with theorems settling the specification claims.

Modelling conventions:
* JavaScript numbers are modelled as `Rat` (the code only does decimal
  arithmetic in the ml / oz computations); timestamps are modelled as `Nat`
  (ISO-8601 strings produced by `new Date().toISOString()` compare
  chronologically, which an increasing `Nat` clock captures).
* Optional JSON fields are `Option` values; JavaScript truthiness of a
  string-valued field (`if (x)`) is `strTruthy` (absent or empty string is
  falsy).
* Locale date/time formatting (`toLocaleDateString` / `toLocaleTimeString`)
  depends on the runtime's locale database, so the renderers are
  parametrised by opaque formatting functions `locDate locTime : String →
  String` applied to the stored ISO timestamp strings.
* Each HTTP handler becomes a pure function threading the file-backed store
  explicitly and returning its response value alongside the possibly updated
  store; a rejected request returns the store unchanged.
-/

namespace BMT

/-- JavaScript truthiness of an optional string field: `undefined` and the
empty string are falsy. -/
def strTruthy : Option String → Bool
  | some s => s ≠ ""
  | none => false

/-- JavaScript `x || null` applied to an optional string: a falsy value
(absent or empty) collapses to `null`. -/
def jsOrNull : Option String → Option String
  | some s => if s = "" then none else some s
  | none => none

/-- JavaScript `String(x || d)` for an optional string with a non-empty
default, as in `String(error || 'unknown')`. -/
def jsOrStr (x : Option String) (d : String) : String :=
  match x with
  | some s => if s = "" then d else s
  | none => d

/-- JavaScript `Number(x || d)` for an optional numeric field with default
`d`, as in `Number(directTcpPrinter.port || 9100)`: an absent or zero value
yields the default. -/
def jsOrNat (x : Option Nat) (d : Nat) : Nat :=
  match x with
  | some n => if n = 0 then d else n
  | none => d

/-- A pumping-session record as stored in `data.sessions` (server.js
`POST /api/sessions`); `notes` is an optional free-text field. -/
structure Session where
  id : String
  timestamp : String
  amount_oz : Option Rat
  notes : Option String
  use_by_fridge : String
  use_by_frozen : String
deriving Repr, DecidableEq

/-- JavaScript `Number(s.amount_oz || 0)` (server.js line 444, agent.js
line 43): an absent or zero amount yields 0. -/
def ozOf (s : Session) : Rat :=
  match s.amount_oz with
  | some a => if a = 0 then 0 else a
  | none => 0

/-- JavaScript truthiness of the `notes` field (`s.notes ? ... : ''`). -/
def notesTruthy : Option String → Bool
  | some n => n ≠ ""
  | none => false

/-- String padded on the left with zeros to `d` characters, used for the
fractional part of `jsToFixed`. -/
def padZeros (s : String) (d : Nat) : String :=
  String.mk (List.replicate (d - s.length) '0') ++ s

/-- JavaScript `Number.prototype.toFixed(d)` on an exact rational: the sign
is split off, the magnitude is scaled by `10^d` and rounded to the nearest
integer (ties away from zero, i.e. `round` on the non-negative magnitude),
and the digits are re-assembled with a decimal point when `d > 0`. -/
def jsToFixed (q : Rat) (d : Nat) : String :=
  let sgn := if q < 0 then "-" else ""
  let n : Nat := (round (|q| * (10 : Rat) ^ d)).toNat
  if d = 0 then sgn ++ toString n
  else sgn ++ toString (n / 10 ^ d) ++ "." ++ padZeros (toString (n % 10 ^ d)) d

/-- The oz→ml conversion factor `29.5735` used by every renderer. -/
def mlRate : Rat := 29.5735

/-- JavaScript `String(x).replace(/"/g,'\\"')`: every double quote becomes a
backslash-quote pair (server.js line 539, agent.js line 59). -/
def escQuotes (s : String) : String :=
  String.mk ((s.data.map (fun c => if c = '\"' then ['\\', '\"'] else [c])).flatten)

/-- JavaScript `String.prototype.slice(0, n)`. -/
def jsSlice (s : String) (n : Nat) : String :=
  String.mk (s.data.take n)

/-- The TSPL program of the local `printMode = "tspl"` branch of
`POST /api/print` (server.js lines 517–545), as the list of its lines: the
fixed geometry commands, the four TEXT fields (the notes entry is the empty
string when `s.notes` is falsy) and the print commands, with falsy entries
removed by `.filter(Boolean)`. -/
def tsplLines (locDate locTime : String → String) (s : Session) : List String :=
  let oz := ozOf s
  let ml := jsToFixed (oz * mlRate) 0
  let wIn : Rat := 2.625
  let hIn : Rat := 1.0
  ([ "SIZE " ++ jsToFixed wIn 3 ++ "," ++ jsToFixed hIn 3,
     "GAP 0.12,0",
     "DIRECTION 1",
     "REFERENCE 0,0",
     "OFFSET 0.0",
     "SET TEAR ON",
     "CLS",
     "TEXT 30,20,\"0\",0,1,1,\"" ++ locDate s.timestamp ++ " " ++ locTime s.timestamp ++ "\"",
     "TEXT 30,50,\"0\",0,1,2,\"" ++ jsToFixed oz 2 ++ " oz (" ++ ml ++ " ml)\"",
     (match s.notes with
      | some n => if n = "" then "" else "TEXT 30,95,\"0\",0,1,1,\"" ++ jsSlice (escQuotes n) 28 ++ "\""
      | none => ""),
     "TEXT 30,125,\"0\",0,1,1,\"Fridge: " ++ locDate s.use_by_fridge ++ "  Freezer: " ++ locDate s.use_by_frozen ++ "\"",
     "PRINT 1,1",
     "FORMFEED" ] : List String).filter (fun l => l ≠ "")

/-- The text fragments drawn onto the PDF label, in drawing order (server.js
lines 576–598): the timestamp line, the bold oz fragment, the ml suffix
fragment, the optional notes line (drawn only when `s.notes` is truthy,
truncated to 60 characters) and the use-by line. -/
def pdfTexts (locDate locTime : String → String) (s : Session) : List String :=
  let oz := ozOf s
  let ml := jsToFixed (oz * mlRate) 0
  [ locDate s.timestamp ++ " " ++ locTime s.timestamp,
    jsToFixed oz 2 ++ " oz",
    "  (" ++ ml ++ " ml)" ]
  ++ (match s.notes with
      | some n => if n = "" then [] else [jsSlice n 60]
      | none => [])
  ++ [ "Fridge: " ++ locDate s.use_by_fridge ++ "   Freeze: " ++ locDate s.use_by_frozen ]

/-- The shallow snapshot of a session embedded in a queued print job
(server.js lines 502–509): `amount_oz` is forced to a number and `notes` to
a string. -/
structure SessionSnap where
  id : String
  timestamp : String
  amount_oz : Rat
  notes : String
  use_by_fridge : String
  use_by_frozen : String
deriving Repr, DecidableEq

/-- The snapshot built at enqueue time (server.js lines 502–509):
`amount_oz := Number(s.amount_oz || 0)`, `notes := s.notes || ''`. -/
def snapOf (s : Session) : SessionSnap :=
  { id := s.id
    timestamp := s.timestamp
    amount_oz := ozOf s
    notes := match s.notes with
             | some n => n
             | none => ""
    use_by_fridge := s.use_by_fridge
    use_by_frozen := s.use_by_frozen }

/-- The agent's `tsplForSession` (agent.js lines 41–65), rendering a job's
session snapshot: identical line structure to the server's TSPL branch,
with the notes entry left as the empty string (and then filtered away) when
`s.notes` is falsy. -/
def tsplForSession (locDate locTime : String → String) (s : SessionSnap) : List String :=
  let oz := if s.amount_oz = 0 then 0 else s.amount_oz
  let ml := jsToFixed (oz * mlRate) 0
  let wIn : Rat := 2.625
  let hIn : Rat := 1.0
  ([ "SIZE " ++ jsToFixed wIn 3 ++ "," ++ jsToFixed hIn 3,
     "GAP 0.12,0",
     "DIRECTION 1",
     "REFERENCE 0,0",
     "OFFSET 0.0",
     "SET TEAR ON",
     "CLS",
     "TEXT 30,20,\"0\",0,1,1,\"" ++ locDate s.timestamp ++ " " ++ locTime s.timestamp ++ "\"",
     "TEXT 30,50,\"0\",0,1,2,\"" ++ jsToFixed oz 2 ++ " oz (" ++ ml ++ " ml)\"",
     (if s.notes = "" then "" else "TEXT 30,95,\"0\",0,1,1,\"" ++ jsSlice (escQuotes s.notes) 28 ++ "\""),
     "TEXT 30,125,\"0\",0,1,1,\"Fridge: " ++ locDate s.use_by_fridge ++ "  Freezer: " ++ locDate s.use_by_frozen ++ "\"",
     "PRINT 1,1",
     "FORMFEED" ] : List String).filter (fun l => l ≠ "")

/-- The lifecycle status of a print job (`'queued' | 'claimed' | 'done' |
'failed'`). -/
inductive JobStatus where
  | queued
  | claimed
  | done
  | failed
deriving Repr, DecidableEq

/-- A print job as stored in `data.printJobs` (server.js lines 497–510 plus
the fields later added by claim and complete). `createdAt`, `claimedAt` and
`finishedAt` are `Nat` clock readings standing for the ISO timestamp
strings. -/
structure Job where
  id : String
  printerId : Option String
  status : JobStatus
  createdAt : Nat
  claimedAt : Option Nat
  finishedAt : Option Nat
  error : Option String
  session : SessionSnap
deriving Repr, DecidableEq

/-- An agent registration as stored in `data.agents` (server.js lines
637–642); `capabilities` is free-form metadata, modelled opaquely as an
optional string. -/
structure Agent where
  printerId : String
  lastSeen : Nat
  agentVersion : Option String
  capabilities : Option String
deriving Repr, DecidableEq

/-- The file-backed store `data.json` after `readData`'s defaulting
(server.js lines 361–377): sessions, print jobs, and the agents map
(modelled as an association list in JavaScript object key order, where an
existing key keeps its position and a new key is appended). -/
structure Store where
  sessions : List Session
  printJobs : List Job
  agents : List (String × Agent)
deriving Repr, DecidableEq

/-- The `directTcpPrinter` request field of `POST /api/print`. -/
structure TcpPrinterReq where
  host : Option String
  port : Option Nat
deriving Repr, DecidableEq

/-- The body of a `POST /api/print` request (server.js line 435). -/
structure PrintReq where
  sessionId : Option String
  session : Option Session
  printerId : Option String
  directTcpPrinter : Option TcpPrinterReq
deriving Repr, DecidableEq

/-- The ambient configuration read by the print dispatcher:
`centralMode := (process.env.CENTRAL_MODE || '0') === '1'` and
`printMode := (process.env.PRINT_MODE || '').toLowerCase()`. -/
structure PrintConfig where
  centralMode : Bool
  printMode : String
deriving Repr, DecidableEq

/-- JavaScript truthiness of `directTcpPrinter && directTcpPrinter.host`
(server.js line 448). -/
def tcpTruthy : Option TcpPrinterReq → Bool
  | some t => strTruthy t.host
  | none => false

/-- Session resolution at the top of `POST /api/print` (server.js lines
435–441): an inline `session` payload wins; otherwise a truthy `sessionId`
is looked up in the stored sessions. -/
def resolveSession (req : PrintReq) (store : Store) : Option Session :=
  match req.session with
  | some s => some s
  | none =>
    match req.sessionId with
    | some sid => if sid = "" then none else store.sessions.find? (fun x => x.id == sid)
    | none => none

/-- The job record created by the queue branch of the dispatcher (server.js
lines 497–510): `printerId || null`, status `queued`, `createdAt := now`,
and a shallow session snapshot. -/
def mkJob (newId : String) (printerId : Option String) (now : Nat) (s : Session) : Job :=
  { id := newId
    printerId := jsOrNull printerId
    status := JobStatus.queued
    createdAt := now
    claimedAt := none
    finishedAt := none
    error := none
    session := snapOf s }

/-- The response-determining outcome of `POST /api/print`: rejection, or
exactly one of the four transports. The TCP and queue variants carry the
data the handler computes for them (resolved host/port, new job id and
normalised target printer); `tsplLocal` is the raw-device-then-subprocess
path, `pdfPath` the PDF-subprocess path. Physical transport I/O is outside
the embedding; which adapter is invoked is fully determined by this
value. -/
inductive PrintOutcome where
  | noSession
  | tcpDispatch (host : String) (port : Nat)
  | queuedJob (jobId : String) (printerId : Option String)
  | tsplLocal
  | pdfPath
deriving Repr, DecidableEq

/-- The dispatch logic of `POST /api/print` (server.js lines 433–628):
resolve the session (400 when none), then, first match wins, the
`directTcpPrinter.host` branch, the `centralMode || printerId` queue branch
(which appends a job to the store and answers with its id), the
`printMode === 'tspl'` branch, and the default PDF branch. Only the queue
branch writes the store. -/
def printHandler (cfg : PrintConfig) (req : PrintReq) (now : Nat) (newId : String)
    (store : Store) : PrintOutcome × Store :=
  match resolveSession req store with
  | none => (PrintOutcome.noSession, store)
  | some s =>
    if tcpTruthy req.directTcpPrinter then
      match req.directTcpPrinter with
      | some t => (PrintOutcome.tcpDispatch (match t.host with | some h => h | none => "") (jsOrNat t.port 9100), store)
      | none => (PrintOutcome.noSession, store)
    else if cfg.centralMode || strTruthy req.printerId then
      let job := mkJob newId req.printerId now s
      (PrintOutcome.queuedJob job.id job.printerId,
       { store with printJobs := store.printJobs ++ [job] })
    else if cfg.printMode = "tspl" then
      (PrintOutcome.tsplLocal, store)
    else
      (PrintOutcome.pdfPath, store)

/-- The claim-time mutation of `POST /api/agents/next-job` (server.js lines
670–671): status becomes `claimed` and `claimedAt` is set; nothing else is
touched. -/
def markClaimed (now : Nat) (j : Job) : Job :=
  { j with status := JobStatus.claimed, claimedAt := some now }

/-- The `findIndex`-then-mutate step of the claim handler: the first job in
array order satisfying `p` is replaced by its claimed version and returned;
when none matches the list is returned unchanged with no job. -/
def claimFirst (p : Job → Prop) [DecidablePred p] (now : Nat) :
    List Job → Option Job × List Job
  | [] => (none, [])
  | j :: rest =>
    if p j then
      (some (markClaimed now j), markClaimed now j :: rest)
    else
      ((claimFirst p now rest).1, j :: (claimFirst p now rest).2)

/-- The eligibility predicate for a targeted claim: `j.status === 'queued'
&& j.printerId === printerId` (server.js line 661). -/
def eligTargeted (pid : String) (j : Job) : Prop :=
  j.status = JobStatus.queued ∧ j.printerId = some pid

/-- The eligibility predicate for an unassigned claim: `j.status ===
'queued' && j.printerId == null` (server.js lines 663 and 666). -/
def eligUnassigned (j : Job) : Prop :=
  j.status = JobStatus.queued ∧ j.printerId = none

instance (pid : String) : DecidablePred (eligTargeted pid) := fun j =>
  decidable_of_iff (j.status = JobStatus.queued ∧ j.printerId = some pid) Iff.rfl

instance : DecidablePred eligUnassigned := fun j =>
  decidable_of_iff (j.status = JobStatus.queued ∧ j.printerId = none) Iff.rfl

/-- The `POST /api/agents/next-job` handler (server.js lines 652–678): a
truthy `printerId` first looks for the first queued job targeted at it and
falls back to the first queued unassigned job; a falsy `printerId` looks
only at unassigned queued jobs. The selected job is marked claimed in the
store and returned; otherwise `{job: null}` with the store unchanged. -/
def claimNext (printerId : Option String) (now : Nat) (store : Store) :
    Option Job × Store :=
  match printerId with
  | some pid =>
    if pid = "" then
      let r := claimFirst eligUnassigned now store.printJobs
      (r.1, { store with printJobs := r.2 })
    else
      let r := claimFirst (eligTargeted pid) now store.printJobs
      match r.1 with
      | some j => (some j, { store with printJobs := r.2 })
      | none =>
        let r2 := claimFirst eligUnassigned now store.printJobs
        (r2.1, { store with printJobs := r2.2 })
  | none =>
    let r := claimFirst eligUnassigned now store.printJobs
    (r.1, { store with printJobs := r.2 })

/-- The completion-time mutation of `POST /api/print/:jobId/complete`
(server.js lines 688–690): status becomes `done` or `failed` according to
`success`, `finishedAt` is set, and on failure `error` is set to
`String(error || 'unknown')`. -/
def completeMark (success : Bool) (err : Option String) (now : Nat) (j : Job) : Job :=
  let j1 := { j with
    status := if success then JobStatus.done else JobStatus.failed,
    finishedAt := some now }
  if success then j1 else { j1 with error := some (jsOrStr err "unknown") }

/-- The `findIndex`-then-mutate step of the complete handler: the first job
whose id matches is replaced by its completed version; `none` models the
404 path. -/
def completeFirst (jobId : String) (success : Bool) (err : Option String) (now : Nat) :
    List Job → Option (List Job)
  | [] => none
  | j :: rest =>
    if j.id = jobId then
      some (completeMark success err now j :: rest)
    else
      (completeFirst jobId success err now rest).map (fun l => j :: l)

/-- The `POST /api/print/:jobId/complete` handler (server.js lines 681–697):
the boolean result is `true` when the job was found (response `{ok:true}`)
and `false` for the 404 path, in which case the store is unchanged. -/
def completeJob (jobId : String) (success : Bool) (err : Option String) (now : Nat)
    (store : Store) : Bool × Store :=
  match completeFirst jobId success err now store.printJobs with
  | some jobs => (true, { store with printJobs := jobs })
  | none => (false, store)

/-- Upsert into the agents association list, mirroring JavaScript object key
assignment `store.agents[printerId] = ...`: an existing key keeps its
position and is overwritten whole, a new key is appended. -/
def upsertAgent (pid : String) (a : Agent) : List (String × Agent) → List (String × Agent)
  | [] => [(pid, a)]
  | (k, v) :: rest =>
    if k = pid then (k, a) :: rest else (k, v) :: upsertAgent pid a rest

/-- Lookup in the agents association list. -/
def lookupAgent (pid : String) : List (String × Agent) → Option Agent
  | [] => none
  | (k, v) :: rest => if k = pid then some v else lookupAgent pid rest

/-- The `POST /api/agents/heartbeat` handler (server.js lines 632–649): a
falsy `printerId` is rejected with 400 (result `false`, store unchanged);
otherwise the agent entry under that key is replaced whole with
`{printerId, lastSeen: now, agentVersion: agentVersion || null,
capabilities: capabilities || null}`. -/
def heartbeat (printerId agentVersion capabilities : Option String) (now : Nat)
    (store : Store) : Bool × Store :=
  match printerId with
  | some pid =>
    if pid = "" then (false, store)
    else
      let entry : Agent :=
        { printerId := pid
          lastSeen := now
          agentVersion := jsOrNull agentVersion
          capabilities := jsOrNull capabilities }
      (true, { store with agents := upsertAgent pid entry store.agents })
  | none => (false, store)

/-- The session-updating step of `PATCH /api/sessions/:id` (server.js lines
711–719) applied to the session at the found index. -/
def patchMark (amount_oz : Option Rat) (notes : Option (Option String)) (s : Session) : Session :=
  let s1 := match amount_oz with
            | some a => { s with amount_oz := some a }
            | none => s
  match notes with
  | some n => { s1 with notes := n }
  | none => s1

/-- The `findIndex`-then-mutate step of the session patch: the first session
whose id matches is updated; `none` models the 404 path. -/
def patchFirst (id : String) (amount_oz : Option Rat) (notes : Option (Option String)) :
    List Session → Option (List Session)
  | [] => none
  | s :: rest =>
    if s.id = id then
      some (patchMark amount_oz notes s :: rest)
    else
      (patchFirst id amount_oz notes rest).map (fun l => s :: l)

/-- The `PATCH /api/sessions/:id` handler (server.js lines 700–727): a
present but invalid `amount_oz` (not positive) is rejected with 400, an
unknown id with 404; otherwise `amount_oz` and/or `notes` are updated.
The store is unchanged on every rejection. -/
def patchSession (id : String) (amount_oz : Option Rat) (notes : Option (Option String))
    (store : Store) : Bool × Store :=
  match patchFirst id amount_oz notes store.sessions with
  | none => (false, store)
  | some sessions =>
    match amount_oz with
    | some a =>
      if a ≤ 0 then (false, store)
      else (true, { store with sessions := sessions })
    | none => (true, { store with sessions := sessions })

/-- The `DELETE /api/sessions/:id` handler (server.js lines 730–745):
sessions with the given id are filtered out; when nothing was removed the
404 path leaves the store unchanged. -/
def deleteSession (id : String) (store : Store) : Bool × Store :=
  let remaining := store.sessions.filter (fun s => s.id ≠ id)
  if remaining.length = store.sessions.length then (false, store)
  else (true, { store with sessions := remaining })

/-- Sample session used to instantiate witnesses on concrete inputs. -/
def sampleSession : Session :=
  { id := "s1"
    timestamp := "t1"
    amount_oz := some 4
    notes := some "hi"
    use_by_fridge := "f1"
    use_by_frozen := "z1" }

/-- Sample queued job targeted at printer `p1`. -/
def sampleJobA : Job :=
  { id := "j1"
    printerId := some "p1"
    status := JobStatus.queued
    createdAt := 1
    claimedAt := none
    finishedAt := none
    error := none
    session := snapOf sampleSession }

/-- Sample queued unassigned job, created after `sampleJobA`. -/
def sampleJobB : Job :=
  { sampleJobA with id := "j2", printerId := none, createdAt := 2 }

/-- Sample job already in the `done` state. -/
def sampleJobDone : Job :=
  { sampleJobA with
    id := "j3"
    printerId := none
    createdAt := 3
    status := JobStatus.done
    finishedAt := some 4 }

/-- Sample store holding the sample session and jobs. -/
def sampleStore : Store :=
  { sessions := [sampleSession]
    printJobs := [sampleJobA, sampleJobB]
    agents := [] }

/-- Store holding one job that is already `done`, with no error recorded. -/
def doneStore : Store :=
  { sessions := [], printJobs := [sampleJobDone], agents := [] }

/-- The store after the queue branch of `POST /api/print` enqueues a job for
the sample session under central mode. -/
def enqueuedStore : Store :=
  (printHandler ({ centralMode := true, printMode := "" })
    ({ sessionId := none, session := some sampleSession, printerId := none,
       directTcpPrinter := none }) 1 "jid1" sampleStore).2

/-- The store after the enqueued job is completed once with `success=false`. -/
def failedOnceStore : Store :=
  (completeJob "jid1" false none 2 enqueuedStore).2

/-- The store after the same job is completed a second time with
`success=true`. -/
def refinishedStore : Store :=
  (completeJob "jid1" true none 3 failedOnceStore).2

/-- The error/status relationship that actually holds on every store
reachable through the handlers: a `failed` job always carries an error, and
a job carrying an error is `done` or `failed` (never `queued` or
`claimed`). -/
def errorInv (store : Store) : Prop :=
  ∀ j ∈ store.printJobs,
    (j.status = JobStatus.failed → j.error.isSome = true) ∧
    (j.error.isSome = true → j.status = JobStatus.done ∨ j.status = JobStatus.failed)

/-! ### Supporting lemmas -/

theorem append_ne_empty (a b : String) (h : a ≠ "") : (a ++ b) ≠ "" := by
  intro hc
  apply h
  have hd : a.data ++ b.data = [] := by
    have h2 := congrArg String.data hc
    simpa using h2
  exact String.ext (List.append_eq_nil.mp hd).1

theorem round_nonneg_of_nonneg (q : Rat) (h : 0 ≤ q) : 0 ≤ round q := by
  rw [round_eq]
  apply Int.floor_nonneg.mpr
  linarith

theorem toString_toNat_of_nonneg (i : Int) (h : 0 ≤ i) : toString i.toNat = toString i := by
  obtain ⟨m, rfl⟩ := Int.eq_ofNat_of_zero_le h
  rfl

/-- On a non-negative rational, JavaScript `toFixed(0)` agrees with the
mathematical nearest-integer rounding `round`. -/
theorem jsToFixed_zero_eq_round (q : Rat) (h : 0 ≤ q) :
    jsToFixed q 0 = toString (round q) := by
  unfold jsToFixed
  rw [if_neg (not_lt.mpr h), if_pos rfl, abs_of_nonneg h]
  have h1 : q * (10 : Rat) ^ (0 : Nat) = q := by norm_num
  rw [h1]
  have h2 : toString (round q).toNat = toString (round q) :=
    toString_toNat_of_nonneg (round q) (round_nonneg_of_nonneg q h)
  rw [h2]
  exact String.empty_append (toString (round q))

theorem claimFirst_fst_none (p : Job → Prop) [DecidablePred p] (now : Nat) :
    ∀ l : List Job, (claimFirst p now l).1 = none → ∀ j ∈ l, ¬ p j := by
  intro l
  induction l with
  | nil => intro _ j hj; exact absurd hj (List.not_mem_nil j)
  | cons a rest ih =>
    intro h j hj
    by_cases hpa : p a
    · rw [claimFirst, if_pos hpa] at h
      exact absurd h (by simp)
    · rw [claimFirst, if_neg hpa] at h
      rcases List.mem_cons.mp hj with rfl | hj2
      · exact hpa
      · exact ih h j hj2

theorem claimFirst_fst_some (p : Job → Prop) [DecidablePred p] (now : Nat) :
    ∀ l : List Job, ∀ j : Job,
      List.Pairwise (fun a b => a.createdAt ≤ b.createdAt) l →
      (claimFirst p now l).1 = some j →
      ∃ j0 ∈ l, p j0 ∧ j = markClaimed now j0 ∧
        ∀ k ∈ l, p k → j0.createdAt ≤ k.createdAt := by
  intro l
  induction l with
  | nil => intro j _ h; rw [claimFirst] at h; exact absurd h (by simp)
  | cons a rest ih =>
    intro j hp h
    by_cases hpa : p a
    · rw [claimFirst, if_pos hpa] at h
      refine ⟨a, List.mem_cons_self a rest, hpa, ?_, ?_⟩
      · exact (Option.some.injEq _ _ ▸ h).symm
      · intro k hk _
        rcases List.mem_cons.mp hk with rfl | hk2
        · exact le_refl _
        · exact (List.pairwise_cons.mp hp).1 k hk2
    · rw [claimFirst, if_neg hpa] at h
      obtain ⟨j0, hmem, hpj0, hj, hmin⟩ := ih j (List.pairwise_cons.mp hp).2 h
      refine ⟨j0, List.mem_cons_of_mem a hmem, hpj0, hj, ?_⟩
      intro k hk hpk
      rcases List.mem_cons.mp hk with rfl | hk2
      · exact absurd hpk hpa
      · exact hmin k hk2 hpk

theorem claimFirst_snd_forall2 (p : Job → Prop) [DecidablePred p] (now : Nat) :
    ∀ l : List Job,
      List.Forall₂ (fun a b => b = a ∨ (p a ∧ b = markClaimed now a))
        l (claimFirst p now l).2 := by
  intro l
  induction l with
  | nil => rw [claimFirst]; exact List.Forall₂.nil
  | cons a rest ih =>
    by_cases hpa : p a
    · rw [claimFirst, if_pos hpa]
      refine List.Forall₂.cons (Or.inr ⟨hpa, rfl⟩) ?_
      exact (List.forall₂_same).mpr (fun x _ => Or.inl rfl)
    · rw [claimFirst, if_neg hpa]
      exact List.Forall₂.cons (Or.inl rfl) ih

theorem completeFirst_forall2 (jid : String) (succ : Bool) (err : Option String) (now : Nat) :
    ∀ l l2 : List Job, completeFirst jid succ err now l = some l2 →
      List.Forall₂ (fun a b => b = a ∨ (a.id = jid ∧ b = completeMark succ err now a)) l l2 := by
  intro l
  induction l with
  | nil => intro l2 h; rw [completeFirst] at h; exact absurd h (by simp)
  | cons a rest ih =>
    intro l2 h
    by_cases hida : a.id = jid
    · rw [completeFirst, if_pos hida] at h
      obtain rfl := (Option.some.injEq _ _ ▸ h)
      refine List.Forall₂.cons (Or.inr ⟨hida, rfl⟩) ?_
      exact (List.forall₂_same).mpr (fun x _ => Or.inl rfl)
    · rw [completeFirst, if_neg hida] at h
      rcases h2 : completeFirst jid succ err now rest with _ | rest2
      · rw [h2] at h; exact absurd h (by simp)
      · rw [h2] at h
        obtain rfl := (Option.some.injEq _ _ ▸ h)
        exact List.Forall₂.cons (Or.inl rfl) (ih rest2 h2)

theorem completeFirst_of_mem (jid : String) (succ : Bool) (err : Option String) (now : Nat) :
    ∀ l : List Job, ∀ j : Job, j ∈ l → j.id = jid → (l.map Job.id).Nodup →
      ∃ l2, completeFirst jid succ err now l = some l2 ∧
        completeMark succ err now j ∈ l2 := by
  intro l
  induction l with
  | nil => intro j hj; exact absurd hj (List.not_mem_nil j)
  | cons a rest ih =>
    intro j hj hjid hnd
    rw [List.map_cons] at hnd
    obtain ⟨hnotin, hnd2⟩ := List.nodup_cons.mp hnd
    by_cases hida : a.id = jid
    · have hja : j = a := by
        rcases List.mem_cons.mp hj with rfl | hj2
        · rfl
        · exfalso
          apply hnotin
          rw [hida, ← hjid]
          exact List.mem_map_of_mem Job.id hj2
      subst hja
      exact ⟨completeMark succ err now j :: rest,
        by rw [completeFirst, if_pos hida], List.mem_cons_self _ _⟩
    · have hj2 : j ∈ rest := by
        rcases List.mem_cons.mp hj with rfl | hj2
        · exact absurd hjid hida
        · exact hj2
      obtain ⟨l2, hl2, hmem⟩ := ih j hj2 hjid hnd2
      exact ⟨a :: l2, by rw [completeFirst, if_neg hida, hl2]; rfl,
        List.mem_cons_of_mem a hmem⟩

theorem markClaimed_fields (now : Nat) (j : Job) :
    (markClaimed now j).id = j.id ∧ (markClaimed now j).printerId = j.printerId ∧
    (markClaimed now j).createdAt = j.createdAt ∧
    (markClaimed now j).finishedAt = j.finishedAt ∧
    (markClaimed now j).error = j.error ∧ (markClaimed now j).session = j.session ∧
    (markClaimed now j).status = JobStatus.claimed ∧
    (markClaimed now j).claimedAt = some now :=
  ⟨rfl, rfl, rfl, rfl, rfl, rfl, rfl, rfl⟩

theorem completeMark_fields (succ : Bool) (err : Option String) (now : Nat) (j : Job) :
    (completeMark succ err now j).id = j.id ∧
    (completeMark succ err now j).printerId = j.printerId ∧
    (completeMark succ err now j).createdAt = j.createdAt ∧
    (completeMark succ err now j).claimedAt = j.claimedAt ∧
    (completeMark succ err now j).session = j.session ∧
    (completeMark succ err now j).status
      = (if succ then JobStatus.done else JobStatus.failed) ∧
    (completeMark succ err now j).finishedAt = some now ∧
    (completeMark succ err now j).error
      = (if succ then j.error else some (jsOrStr err "unknown")) := by
  cases succ <;> exact ⟨rfl, rfl, rfl, rfl, rfl, rfl, rfl, rfl⟩

/-- Every job in the store after a claim request is either an untouched
original job or the claimed version of an original queued job. -/
theorem claimNext_snd_forall2 (printerId : Option String) (now : Nat) (store : Store) :
    List.Forall₂ (fun a b => b = a ∨ (a.status = JobStatus.queued ∧ b = markClaimed now a))
      store.printJobs (claimNext printerId now store).2.printJobs := by
  have hu := claimFirst_snd_forall2 eligUnassigned now store.printJobs
  have hu2 : List.Forall₂
      (fun a b => b = a ∨ (a.status = JobStatus.queued ∧ b = markClaimed now a))
      store.printJobs (claimFirst eligUnassigned now store.printJobs).2 :=
    List.Forall₂.imp (fun a b h => h.imp id (fun h2 => ⟨h2.1.1, h2.2⟩)) hu
  cases printerId with
  | none =>
    simpa only [claimNext] using hu2
  | some pid =>
    by_cases hpid : pid = ""
    · simp only [claimNext, if_pos hpid]
      exact hu2
    · simp only [claimNext, if_neg hpid]
      rcases h : (claimFirst (eligTargeted pid) now store.printJobs).1 with _ | j
      · simp only [h]
        exact hu2
      · simp only [h]
        have ht := claimFirst_snd_forall2 (eligTargeted pid) now store.printJobs
        exact List.Forall₂.imp
          (fun a b h2 => h2.imp id (fun h3 => ⟨h3.1.1, h3.2⟩)) ht

/-- Every job in the store after a complete request is either an untouched
original job or the completed version of the original job with the given
id. -/
theorem completeJob_snd_forall2 (jid : String) (succ : Bool) (err : Option String)
    (now : Nat) (store : Store) :
    List.Forall₂ (fun a b => b = a ∨ (a.id = jid ∧ b = completeMark succ err now a))
      store.printJobs (completeJob jid succ err now store).2.printJobs := by
  rcases h : completeFirst jid succ err now store.printJobs with _ | l2
  · rw [completeJob, h]
    exact (List.forall₂_same).mpr (fun x _ => Or.inl rfl)
  · rw [completeJob, h]
    exact completeFirst_forall2 jid succ err now store.printJobs l2 h

theorem lookup_upsert_self (pid : String) (a : Agent) :
    ∀ l : List (String × Agent), lookupAgent pid (upsertAgent pid a l) = some a := by
  intro l
  induction l with
  | nil => rw [upsertAgent, lookupAgent, if_pos rfl]
  | cons kv rest ih =>
    obtain ⟨k, v⟩ := kv
    by_cases hk : k = pid
    · rw [upsertAgent, if_pos hk, lookupAgent, if_pos hk]
    · rw [upsertAgent, if_neg hk, lookupAgent, if_neg hk]
      exact ih

theorem lookup_upsert_other (pid q : String) (a : Agent) (h : q ≠ pid) :
    ∀ l : List (String × Agent),
      lookupAgent q (upsertAgent pid a l) = lookupAgent q l := by
  intro l
  have hpq : ¬ pid = q := fun h2 => h h2.symm
  induction l with
  | nil =>
    simp only [upsertAgent, lookupAgent, if_neg hpq]
  | cons kv rest ih =>
    obtain ⟨k, v⟩ := kv
    by_cases hk : k = pid
    · subst hk
      simp only [upsertAgent, if_pos rfl, lookupAgent, if_neg hpq]
    · simp only [upsertAgent, if_neg hk, lookupAgent]
      by_cases hq : k = q
      · simp only [if_pos hq]
      · simp only [if_neg hq]
        exact ih

/-- The print handler writes the store only in its queue branch, where it
appends exactly one freshly created job. -/
theorem printHandler_printJobs (cfg : PrintConfig) (req : PrintReq) (now : Nat)
    (newId : String) (store : Store) :
    (printHandler cfg req now newId store).2.printJobs = store.printJobs ∨
    ∃ s, resolveSession req store = some s ∧
      (printHandler cfg req now newId store).2.printJobs
        = store.printJobs ++ [mkJob newId req.printerId now s] := by
  rcases h : resolveSession req store with _ | s
  · simp [printHandler, h]
  · rcases hd : req.directTcpPrinter with _ | t
    · by_cases hq : (cfg.centralMode || strTruthy req.printerId) = true
      · simp [printHandler, h, hd, tcpTruthy, hq]
      · by_cases hm : cfg.printMode = "tspl" <;>
          simp [printHandler, h, hd, tcpTruthy, hq, hm]
    · by_cases htcp : strTruthy t.host = true
      · simp [printHandler, h, hd, tcpTruthy, htcp]
      · by_cases hq : (cfg.centralMode || strTruthy req.printerId) = true
        · simp [printHandler, h, hd, tcpTruthy, htcp, hq]
        · by_cases hm : cfg.printMode = "tspl" <;>
            simp [printHandler, h, hd, tcpTruthy, htcp, hq, hm]

theorem claimFirst_fst_none_of (p : Job → Prop) [DecidablePred p] (now : Nat) :
    ∀ l : List Job, (∀ j ∈ l, ¬ p j) → (claimFirst p now l).1 = none := by
  intro l
  induction l with
  | nil => intro _; rw [claimFirst]
  | cons a rest ih =>
    intro h
    rw [claimFirst, if_neg (h a (List.mem_cons_self a rest))]
    exact ih (fun j hj => h j (List.mem_cons_of_mem a hj))

theorem forall2_mem_right {α β : Type} {R : α → β → Prop} :
    ∀ {l1 : List α} {l2 : List β}, List.Forall₂ R l1 l2 →
      ∀ b ∈ l2, ∃ a ∈ l1, R a b := by
  intro l1 l2 h
  induction h with
  | nil => intro b hb; exact absurd hb (List.not_mem_nil b)
  | cons hR hrest ih =>
    intro b hb
    rcases List.mem_cons.mp hb with rfl | hb2
    · exact ⟨_, List.mem_cons_self _ _, hR⟩
    · obtain ⟨a, ha, hab⟩ := ih b hb2
      exact ⟨a, List.mem_cons_of_mem _ ha, hab⟩

/-- Membership form of the claim-request frame property. -/
theorem claimNext_snd_mem (printerId : Option String) (now : Nat) (store : Store) :
    ∀ j2 ∈ (claimNext printerId now store).2.printJobs,
      j2 ∈ store.printJobs ∨
      ∃ a ∈ store.printJobs, a.status = JobStatus.queued ∧ j2 = markClaimed now a := by
  intro j2 hj2
  obtain ⟨a, ha, hab⟩ := forall2_mem_right (claimNext_snd_forall2 printerId now store) j2 hj2
  rcases hab with rfl | ⟨hq, rfl⟩
  · exact Or.inl ha
  · exact Or.inr ⟨a, ha, hq, rfl⟩

/-- Membership form of the complete-request frame property. -/
theorem completeJob_snd_mem (jid : String) (succ : Bool) (err : Option String)
    (now : Nat) (store : Store) :
    ∀ j2 ∈ (completeJob jid succ err now store).2.printJobs,
      j2 ∈ store.printJobs ∨
      ∃ a ∈ store.printJobs, a.id = jid ∧ j2 = completeMark succ err now a := by
  intro j2 hj2
  obtain ⟨a, ha, hab⟩ :=
    forall2_mem_right (completeJob_snd_forall2 jid succ err now store) j2 hj2
  rcases hab with rfl | ⟨hid, rfl⟩
  · exact Or.inl ha
  · exact Or.inr ⟨a, ha, hid, rfl⟩

theorem heartbeat_printJobs (printerId agentVersion capabilities : Option String)
    (now : Nat) (store : Store) :
    (heartbeat printerId agentVersion capabilities now store).2.printJobs
      = store.printJobs := by
  cases printerId with
  | none => rfl
  | some pid =>
    by_cases hpid : pid = ""
    · simp [heartbeat, hpid]
    · simp [heartbeat, hpid]

theorem heartbeat_sessions (printerId agentVersion capabilities : Option String)
    (now : Nat) (store : Store) :
    (heartbeat printerId agentVersion capabilities now store).2.sessions
      = store.sessions := by
  cases printerId with
  | none => rfl
  | some pid =>
    by_cases hpid : pid = ""
    · simp [heartbeat, hpid]
    · simp [heartbeat, hpid]

theorem patchSession_printJobs (sid : String) (amount_oz : Option Rat)
    (notes : Option (Option String)) (store : Store) :
    (patchSession sid amount_oz notes store).2.printJobs = store.printJobs := by
  rcases h : patchFirst sid amount_oz notes store.sessions with _ | l2
  · simp [patchSession, h]
  · rcases amount_oz with _ | a
    · simp [patchSession, h]
    · by_cases ha : a ≤ 0
      · simp [patchSession, h, ha]
      · simp [patchSession, h, ha]

theorem deleteSession_printJobs (sid : String) (store : Store) :
    (deleteSession sid store).2.printJobs = store.printJobs := by
  simp only [deleteSession]
  split
  · rfl
  · rfl

theorem filter_count_13 (a1 a2 a3 a4 a5 a6 a7 a8 a9 mid b1 b2 b3 : String)
    (h1 : a1 ≠ "") (h2 : a2 ≠ "") (h3 : a3 ≠ "") (h4 : a4 ≠ "") (h5 : a5 ≠ "")
    (h6 : a6 ≠ "") (h7 : a7 ≠ "") (h8 : a8 ≠ "") (h9 : a9 ≠ "")
    (g1 : b1 ≠ "") (g2 : b2 ≠ "") (g3 : b3 ≠ "") :
    (([a1, a2, a3, a4, a5, a6, a7, a8, a9, mid, b1, b2, b3].filter
        (fun l => l ≠ "")).length)
      = if mid = "" then 12 else 13 := by
  by_cases hm : mid = "" <;>
    simp [List.filter_cons, h1, h2, h3, h4, h5, h6, h7, h8, h9, g1, g2, g3, hm]

theorem not_mem_filter_ne_empty (l : List String) :
    "" ∉ l.filter (fun x => x ≠ "") := by
  intro h
  have h2 := (List.mem_filter.mp h).2
  simp at h2

theorem pairwise_le_of_forall2 {l l2 : List Job}
    (h : List.Forall₂ (fun a b => b.createdAt = a.createdAt) l l2)
    (hs : List.Pairwise (fun a b => a.createdAt ≤ b.createdAt) l) :
    List.Pairwise (fun a b => a.createdAt ≤ b.createdAt) l2 := by
  induction h with
  | nil => exact List.Pairwise.nil
  | cons hR hrest ih =>
    rcases List.pairwise_cons.mp hs with ⟨hhead, htail⟩
    refine List.pairwise_cons.mpr ⟨?_, ih htail⟩
    intro b2 hb2
    obtain ⟨a2, ha2, hab⟩ := forall2_mem_right hrest b2 hb2
    rw [hR, hab]
    exact hhead a2 ha2

/-- Creation-time order of the job list is an invariant: the print handler
appends only a job stamped with the current (largest) clock value. -/
theorem printHandler_preserves_sorted (cfg : PrintConfig) (req : PrintReq) (now : Nat)
    (newId : String) (store : Store)
    (hs : List.Pairwise (fun a b => a.createdAt ≤ b.createdAt) store.printJobs)
    (hle : ∀ j ∈ store.printJobs, j.createdAt ≤ now) :
    List.Pairwise (fun a b => a.createdAt ≤ b.createdAt)
      (printHandler cfg req now newId store).2.printJobs := by
  rcases printHandler_printJobs cfg req now newId store with heq | ⟨s, _, heq⟩
  · rw [heq]; exact hs
  · rw [heq]
    refine List.pairwise_append.mpr ⟨hs, List.pairwise_singleton _ _, ?_⟩
    intro a ha b hb
    have hb2 : b = mkJob newId req.printerId now s := by simpa using hb
    rw [hb2]
    exact hle a ha

/-- Claiming preserves creation-time order (claim never touches
`createdAt`). -/
theorem claimNext_preserves_sorted (printerId : Option String) (now : Nat) (store : Store)
    (hs : List.Pairwise (fun a b => a.createdAt ≤ b.createdAt) store.printJobs) :
    List.Pairwise (fun a b => a.createdAt ≤ b.createdAt)
      (claimNext printerId now store).2.printJobs := by
  refine pairwise_le_of_forall2 ?_ hs
  refine List.Forall₂.imp ?_ (claimNext_snd_forall2 printerId now store)
  intro a b h
  rcases h with rfl | ⟨_, rfl⟩
  · rfl
  · rfl

/-- Completion preserves creation-time order (complete never touches
`createdAt`). -/
theorem completeJob_preserves_sorted (jid : String) (succ : Bool) (err : Option String)
    (now : Nat) (store : Store)
    (hs : List.Pairwise (fun a b => a.createdAt ≤ b.createdAt) store.printJobs) :
    List.Pairwise (fun a b => a.createdAt ≤ b.createdAt)
      (completeJob jid succ err now store).2.printJobs := by
  refine pairwise_le_of_forall2 ?_ hs
  refine List.Forall₂.imp ?_ (completeJob_snd_forall2 jid succ err now store)
  intro a b h
  rcases h with rfl | ⟨_, rfl⟩
  · rfl
  · cases succ <;> rfl

/-! ### Claim theorems -/

/-- C9: for every print request in which neither an inline session payload is
given nor the supplied sessionId resolves to a stored session, the request is
rejected with a validation error before any transport is attempted, and the
store and all transports are left untouched. -/
theorem claim9_reject_no_session (cfg : PrintConfig) (req : PrintReq) (now : Nat)
    (newId : String) (store : Store) (h : resolveSession req store = none) :
    printHandler cfg req now newId store = (PrintOutcome.noSession, store) := by
  simp [printHandler, h]

/-- Witness for C9: a request whose sessionId resolves to nothing is rejected
with the sample store untouched. -/
theorem claim9_witness :
    resolveSession
      ({ sessionId := some "nope", session := none, printerId := none,
         directTcpPrinter := none }) sampleStore = none ∧
    printHandler ({ centralMode := false, printMode := "" })
      ({ sessionId := some "nope", session := none, printerId := none,
         directTcpPrinter := none }) 3 "n1" sampleStore
      = (PrintOutcome.noSession, sampleStore) :=
  ⟨by decide, claim9_reject_no_session _ _ 3 "n1" sampleStore (by decide)⟩

/-- C1: for every print request and configuration with a resolvable session,
the dispatcher resolves exactly one transport with this precedence, first
match wins: a truthy `directTcpPrinter.host` selects the TCP adapter
regardless of `centralMode` or `printMode`; else `centralMode` enabled or a
truthy `printerId` selects the queue adapter, which answers with the new job
id and appends the job without attempting physical printing; else
`printMode = "tspl"` selects the raw-device-then-subprocess path; otherwise
the PDF-subprocess path, the last two leaving the store untouched. -/
theorem claim1_dispatch_precedence (cfg : PrintConfig) (req : PrintReq) (now : Nat)
    (newId : String) (store : Store) (s : Session)
    (hres : resolveSession req store = some s) :
    (tcpTruthy req.directTcpPrinter = true →
      ∃ hst pt, (printHandler cfg req now newId store).1
        = PrintOutcome.tcpDispatch hst pt) ∧
    (tcpTruthy req.directTcpPrinter = false →
      (cfg.centralMode || strTruthy req.printerId) = true →
      (printHandler cfg req now newId store).1
          = PrintOutcome.queuedJob newId (jsOrNull req.printerId) ∧
        (printHandler cfg req now newId store).2
          = { store with printJobs := store.printJobs ++ [mkJob newId req.printerId now s] }) ∧
    (tcpTruthy req.directTcpPrinter = false →
      (cfg.centralMode || strTruthy req.printerId) = false →
      cfg.printMode = "tspl" →
      printHandler cfg req now newId store = (PrintOutcome.tsplLocal, store)) ∧
    (tcpTruthy req.directTcpPrinter = false →
      (cfg.centralMode || strTruthy req.printerId) = false →
      cfg.printMode ≠ "tspl" →
      printHandler cfg req now newId store = (PrintOutcome.pdfPath, store)) := by
  refine ⟨?_, ?_, ?_, ?_⟩
  · intro htcp
    rcases hd : req.directTcpPrinter with _ | t
    · rw [hd] at htcp
      simp [tcpTruthy] at htcp
    · rw [hd] at htcp
      refine ⟨(match t.host with | some h2 => h2 | none => ""), jsOrNat t.port 9100, ?_⟩
      simp [printHandler, hres, hd, htcp]
  · intro htcp hq
    constructor
    · simp [printHandler, hres, htcp, hq, mkJob]
    · simp [printHandler, hres, htcp, hq, mkJob]
  · intro htcp hq hm
    simp [printHandler, hres, htcp, hq, hm]
  · intro htcp hq hm
    simp [printHandler, hres, htcp, hq, hm]

/-- Witness for C1: with central mode on and an inline sample session, the
queue adapter is selected and the job appended. -/
theorem claim1_witness :
    (printHandler ({ centralMode := true, printMode := "" })
      ({ sessionId := none, session := some sampleSession, printerId := none,
         directTcpPrinter := none }) 3 "n1" sampleStore).1
      = PrintOutcome.queuedJob "n1" (jsOrNull none) ∧
    (printHandler ({ centralMode := true, printMode := "" })
      ({ sessionId := none, session := some sampleSession, printerId := none,
         directTcpPrinter := none }) 3 "n1" sampleStore).2
      = { sampleStore with
          printJobs := sampleStore.printJobs ++ [mkJob "n1" none 3 sampleSession] } :=
  (claim1_dispatch_precedence ({ centralMode := true, printMode := "" }) _ 3 "n1"
    sampleStore sampleSession (by decide)).2.1 (by decide) (by decide)

/-- C10: a heartbeat whose body has a falsy `printerId` is rejected with the
store unchanged; a heartbeat with a truthy `printerId` replaces the agent
entry under that key whole (other entries and the rest of the store
unchanged), with `agentVersion` and `capabilities` defaulting to null when
absent. -/
theorem claim10_heartbeat (printerId agentVersion capabilities : Option String)
    (now : Nat) (store : Store) :
    (strTruthy printerId = false →
      heartbeat printerId agentVersion capabilities now store = (false, store)) ∧
    (∀ pid, printerId = some pid → pid ≠ "" →
      (heartbeat printerId agentVersion capabilities now store).1 = true ∧
      lookupAgent pid (heartbeat printerId agentVersion capabilities now store).2.agents
        = some ({ printerId := pid, lastSeen := now,
                  agentVersion := jsOrNull agentVersion,
                  capabilities := jsOrNull capabilities }) ∧
      (∀ q, q ≠ pid →
        lookupAgent q (heartbeat printerId agentVersion capabilities now store).2.agents
          = lookupAgent q store.agents) ∧
      (heartbeat printerId agentVersion capabilities now store).2.sessions
        = store.sessions ∧
      (heartbeat printerId agentVersion capabilities now store).2.printJobs
        = store.printJobs) := by
  constructor
  · intro hfalse
    cases printerId with
    | none => rfl
    | some pid =>
      have hpid : pid = "" := by simpa [strTruthy] using hfalse
      simp [heartbeat, hpid]
  · intro pid hpid hne
    subst hpid
    refine ⟨by simp [heartbeat, hne], ?_, ?_, by simp [heartbeat, hne],
      by simp [heartbeat, hne]⟩
    · simp only [heartbeat, if_neg hne]
      exact lookup_upsert_self pid _ store.agents
    · intro q hq
      simp only [heartbeat, if_neg hne]
      exact lookup_upsert_other pid q _ hq store.agents

/-- Witness for C10: a heartbeat from printer `p9` with no metadata registers
the entry with null defaults. -/
theorem claim10_witness :
    (heartbeat (some "p9") none none 4 sampleStore).1 = true ∧
    lookupAgent "p9" (heartbeat (some "p9") none none 4 sampleStore).2.agents
      = some ({ printerId := "p9", lastSeen := 4,
                agentVersion := jsOrNull none, capabilities := jsOrNull none }) :=
  ⟨((claim10_heartbeat (some "p9") none none 4 sampleStore).2 "p9" rfl (by decide)).1,
   ((claim10_heartbeat (some "p9") none none 4 sampleStore).2 "p9" rfl (by decide)).2.1⟩

/-- C3: for every job present in the store (ids distinct), completing it with
`success=true` sets its status to `done`, and with `success=false` sets it to
`failed` with the error field populated; `finishedAt` is set in both
cases. -/
theorem claim3_complete_transitions (success : Bool) (err : Option String) (now : Nat)
    (store : Store) (j : Job) (hj : j ∈ store.printJobs)
    (hnd : (store.printJobs.map Job.id).Nodup) :
    (completeJob j.id success err now store).1 = true ∧
    ∃ j2 ∈ (completeJob j.id success err now store).2.printJobs,
      j2.id = j.id ∧ j2.session = j.session ∧
      j2.status = (if success then JobStatus.done else JobStatus.failed) ∧
      j2.finishedAt = some now ∧
      (success = false → j2.error = some (jsOrStr err "unknown")) := by
  obtain ⟨l2, hl2, hmem⟩ :=
    completeFirst_of_mem j.id success err now store.printJobs j hj rfl hnd
  constructor
  · simp [completeJob, hl2]
  · refine ⟨completeMark success err now j, ?_, ?_, ?_, ?_, ?_, ?_⟩
    · simp only [completeJob, hl2]
      exact hmem
    · exact (completeMark_fields success err now j).1
    · exact (completeMark_fields success err now j).2.2.2.2.1
    · exact (completeMark_fields success err now j).2.2.2.2.2.1
    · exact (completeMark_fields success err now j).2.2.2.2.2.2.1
    · intro hf
      subst hf
      have he := (completeMark_fields false err now j).2.2.2.2.2.2.2
      simpa using he

/-- Witness for C3: failing the sample queued job marks it failed with the
default error text and the finish time. -/
theorem claim3_witness :
    (completeJob sampleJobA.id false none 7 sampleStore).1 = true ∧
    ∃ j2 ∈ (completeJob sampleJobA.id false none 7 sampleStore).2.printJobs,
      j2.id = sampleJobA.id ∧ j2.session = sampleJobA.session ∧
      j2.status = (if false then JobStatus.done else JobStatus.failed) ∧
      j2.finishedAt = some 7 ∧
      (false = false → j2.error = some (jsOrStr none "unknown")) :=
  claim3_complete_transitions false none 7 sampleStore sampleJobA (by decide) (by decide)

/-- C4 counterexample: the complete handler has no status precondition, so a
job that is already `done` is flipped to `failed` by a later complete
request, contradicting the claim that `done`/`failed` are absorbing under
claim and complete operations. -/
theorem claim4_counterexample :
    (∃ j0 ∈ doneStore.printJobs, j0.id = "j3" ∧ j0.status = JobStatus.done) ∧
    ∃ j ∈ (completeJob "j3" false none 9 doneStore).2.printJobs,
      j.id = "j3" ∧ j.status = JobStatus.failed ∧ j.finishedAt = some 9 := by
  decide

/-- C4 amended: the claim operation admits only the transition
queued-to-claimed (every job in the store after a claim is either untouched
or the claimed version of a queued job, so `done`/`failed` jobs are
absorbing under any sequence of claim operations); the complete operation,
however, sets the status of the matching job to `done` (success) or `failed`
(failure) regardless of its current status, so repeated completion can move
a job between `done` and `failed`. -/
theorem claim4_amended_state_machine :
    (∀ (printerId : Option String) (now : Nat) (store : Store),
      List.Forall₂
        (fun a b => b = a ∨ (a.status = JobStatus.queued ∧ b = markClaimed now a))
        store.printJobs (claimNext printerId now store).2.printJobs) ∧
    (∀ (jid : String) (succ : Bool) (err : Option String) (now : Nat) (store : Store),
      ∀ j2 ∈ (completeJob jid succ err now store).2.printJobs,
        j2 ∈ store.printJobs ∨
        j2.status = (if succ then JobStatus.done else JobStatus.failed)) := by
  constructor
  · intro printerId now store
    exact claimNext_snd_forall2 printerId now store
  · intro jid succ err now store j2 hj2
    rcases completeJob_snd_mem jid succ err now store j2 hj2 with hm | ⟨a, _, _, rfl⟩
    · exact Or.inl hm
    · exact Or.inr (completeMark_fields succ err now a).2.2.2.2.2.1

/-- Witness for the amended C4: completing the sample queued job with
success produces a job whose status is `done`. -/
theorem claim4_witness :
    completeMark true none 7 sampleJobA
        ∈ (completeJob "j1" true none 7 sampleStore).2.printJobs ∧
    (completeMark true none 7 sampleJobA ∈ sampleStore.printJobs ∨
      (completeMark true none 7 sampleJobA).status
        = (if true then JobStatus.done else JobStatus.failed)) :=
  ⟨by decide,
   claim4_amended_state_machine.2 "j1" true none 7 sampleStore
     (completeMark true none 7 sampleJobA) (by decide)⟩

/-- C5: a job's session snapshot is never changed by claim, complete,
heartbeat, session edit or deletion; claim mutates only `status` and
`claimedAt` (every job after a claim agrees with an original job on all
other fields), and complete mutates only `status`, `finishedAt` and
`error`. -/
theorem claim5_frame (store : Store) :
    (∀ (printerId : Option String) (now : Nat),
      ∀ j2 ∈ (claimNext printerId now store).2.printJobs,
        ∃ j ∈ store.printJobs, j2.session = j.session ∧ j2.id = j.id ∧
          j2.printerId = j.printerId ∧ j2.createdAt = j.createdAt ∧
          j2.finishedAt = j.finishedAt ∧ j2.error = j.error) ∧
    (∀ (jid : String) (succ : Bool) (err : Option String) (now : Nat),
      ∀ j2 ∈ (completeJob jid succ err now store).2.printJobs,
        ∃ j ∈ store.printJobs, j2.session = j.session ∧ j2.id = j.id ∧
          j2.printerId = j.printerId ∧ j2.createdAt = j.createdAt ∧
          j2.claimedAt = j.claimedAt) ∧
    (∀ (printerId agentVersion capabilities : Option String) (now : Nat),
      (heartbeat printerId agentVersion capabilities now store).2.printJobs
        = store.printJobs) ∧
    (∀ (sid : String) (amount_oz : Option Rat) (notes : Option (Option String)),
      (patchSession sid amount_oz notes store).2.printJobs = store.printJobs) ∧
    (∀ sid : String, (deleteSession sid store).2.printJobs = store.printJobs) := by
  refine ⟨?_, ?_, ?_, ?_, ?_⟩
  · intro printerId now j2 hj2
    rcases claimNext_snd_mem printerId now store j2 hj2 with hm | ⟨a, ha, _, rfl⟩
    · exact ⟨j2, hm, rfl, rfl, rfl, rfl, rfl, rfl⟩
    · obtain ⟨f1, f2, f3, f4, f5, f6, _, _⟩ := markClaimed_fields now a
      exact ⟨a, ha, f6, f1, f2, f3, f4, f5⟩
  · intro jid succ err now j2 hj2
    rcases completeJob_snd_mem jid succ err now store j2 hj2 with hm | ⟨a, ha, _, rfl⟩
    · exact ⟨j2, hm, rfl, rfl, rfl, rfl, rfl⟩
    · obtain ⟨f1, f2, f3, f4, f5, _, _, _⟩ := completeMark_fields succ err now a
      exact ⟨a, ha, f5, f1, f2, f3, f4⟩
  · intro printerId agentVersion capabilities now
    exact heartbeat_printJobs printerId agentVersion capabilities now store
  · intro sid amount_oz notes
    exact patchSession_printJobs sid amount_oz notes store
  · intro sid
    exact deleteSession_printJobs sid store

/-- Witness for C5: the job claimed from the sample store retains the
session snapshot and all fields other than status and claim time of an
original job. -/
theorem claim5_witness :
    ∃ j ∈ sampleStore.printJobs,
      (markClaimed 5 sampleJobA).session = j.session ∧
      (markClaimed 5 sampleJobA).id = j.id ∧
      (markClaimed 5 sampleJobA).printerId = j.printerId ∧
      (markClaimed 5 sampleJobA).createdAt = j.createdAt ∧
      (markClaimed 5 sampleJobA).finishedAt = j.finishedAt ∧
      (markClaimed 5 sampleJobA).error = j.error :=
  (claim5_frame sampleStore).1 (some "p1") 5 (markClaimed 5 sampleJobA) (by decide)

/-- C6 counterexample: enqueueing a job, completing it with `success=false`
and then completing it again with `success=true` leaves a job whose status
is `done` but whose error field is still present, contradicting the claimed
equivalence between error presence and `failed` status. -/
theorem claim6_counterexample :
    (∃ j ∈ failedOnceStore.printJobs,
      j.id = "jid1" ∧ j.status = JobStatus.failed ∧ j.error.isSome = true) ∧
    ∃ j ∈ refinishedStore.printJobs,
      j.id = "jid1" ∧ j.status = JobStatus.done ∧ j.error.isSome = true := by
  decide

/-- C6 amended: on every reachable store, a `failed` job always carries an
error and a job carrying an error is `done` or `failed` (so no `queued` or
`claimed` job ever carries one); a `done` job may carry an error left over
from an earlier failed completion. The invariant holds of the empty store
and is preserved by every handler. -/
theorem claim6_amended_error_invariant :
    errorInv ({ sessions := [], printJobs := [], agents := [] }) ∧
    (∀ (cfg : PrintConfig) (req : PrintReq) (now : Nat) (newId : String) (store : Store),
      errorInv store → errorInv (printHandler cfg req now newId store).2) ∧
    (∀ (printerId : Option String) (now : Nat) (store : Store),
      errorInv store → errorInv (claimNext printerId now store).2) ∧
    (∀ (jid : String) (succ : Bool) (err : Option String) (now : Nat) (store : Store),
      errorInv store → errorInv (completeJob jid succ err now store).2) ∧
    (∀ (printerId agentVersion capabilities : Option String) (now : Nat) (store : Store),
      errorInv store → errorInv (heartbeat printerId agentVersion capabilities now store).2) ∧
    (∀ (sid : String) (amount_oz : Option Rat) (notes : Option (Option String)) (store : Store),
      errorInv store → errorInv (patchSession sid amount_oz notes store).2) ∧
    (∀ (sid : String) (store : Store),
      errorInv store → errorInv (deleteSession sid store).2) := by
  refine ⟨?_, ?_, ?_, ?_, ?_, ?_, ?_⟩
  · intro j hj
    exact absurd hj (List.not_mem_nil j)
  · intro cfg req now newId store hinv j hj
    rcases printHandler_printJobs cfg req now newId store with heq | ⟨s, _, heq⟩
    · rw [heq] at hj
      exact hinv j hj
    · rw [heq] at hj
      rcases List.mem_append.mp hj with hm | hm
      · exact hinv j hm
      · have hjm : j = mkJob newId req.printerId now s := by simpa using hm
        subst hjm
        constructor
        · intro hst
          exact absurd hst (by simp [mkJob])
        · intro herr
          exact absurd herr (by simp [mkJob])
  · intro printerId now store hinv j hj
    rcases claimNext_snd_mem printerId now store j hj with hm | ⟨a, ha, hq, rfl⟩
    · exact hinv j hm
    · constructor
      · intro hst
        exact absurd hst (by simp [markClaimed])
      · intro herr
        exfalso
        have herr2 : a.error.isSome = true := herr
        have := (hinv a ha).2 herr2
        rcases this with hd | hf
        · rw [hq] at hd
          exact absurd hd (by simp)
        · rw [hq] at hf
          exact absurd hf (by simp)
  · intro jid succ err now store hinv j hj
    rcases completeJob_snd_mem jid succ err now store j hj with hm | ⟨a, ha, _, rfl⟩
    · exact hinv j hm
    · cases succ with
      | true =>
        constructor
        · intro hst
          exact absurd hst (by simp [completeMark])
        · intro _
          exact Or.inl (completeMark_fields true err now a).2.2.2.2.2.1
      | false =>
        constructor
        · intro _
          simp [completeMark]
        · intro _
          exact Or.inr (completeMark_fields false err now a).2.2.2.2.2.1
  · intro printerId agentVersion capabilities now store hinv j hj
    rw [heartbeat_printJobs] at hj
    exact hinv j hj
  · intro sid amount_oz notes store hinv j hj
    rw [patchSession_printJobs] at hj
    exact hinv j hj
  · intro sid store hinv j hj
    rw [deleteSession_printJobs] at hj
    exact hinv j hj

/-- Witness for the amended C6: the sample store satisfies the invariant and
a claim against it preserves the invariant. -/
theorem claim6_witness :
    errorInv sampleStore ∧ errorInv (claimNext (some "p1") 5 sampleStore).2 :=
  ⟨by simp only [errorInv]; decide,
   claim6_amended_error_invariant.2.2.1 (some "p1") 5 sampleStore
     (by simp only [errorInv]; decide)⟩

theorem tsplLines_length (ld lt : String → String) (s : Session) :
    (tsplLines ld lt s).length = if notesTruthy s.notes then 13 else 12 := by
  have hA1 : ("SIZE " ++ jsToFixed (2.625 : Rat) 3 ++ "," ++ jsToFixed (1.0 : Rat) 3) ≠ "" :=
    append_ne_empty _ _ (append_ne_empty _ _ (by decide))
  have hA8 : ("TEXT 30,20,\"0\",0,1,1,\"" ++ ld s.timestamp ++ " " ++ lt s.timestamp
      ++ "\"") ≠ "" :=
    append_ne_empty _ _ (append_ne_empty _ _ (append_ne_empty _ _
      (append_ne_empty _ _ (by decide))))
  have hA9 : ("TEXT 30,50,\"0\",0,1,2,\"" ++ jsToFixed (ozOf s) 2 ++ " oz ("
      ++ jsToFixed (ozOf s * mlRate) 0 ++ " ml)\"") ≠ "" :=
    append_ne_empty _ _ (append_ne_empty _ _ (append_ne_empty _ _
      (append_ne_empty _ _ (by decide))))
  have hB1 : ("TEXT 30,125,\"0\",0,1,1,\"Fridge: " ++ ld s.use_by_fridge
      ++ "  Freezer: " ++ ld s.use_by_frozen ++ "\"") ≠ "" :=
    append_ne_empty _ _ (append_ne_empty _ _ (append_ne_empty _ _
      (append_ne_empty _ _ (by decide))))
  rcases hno : s.notes with _ | n
  · simp [tsplLines, hno, notesTruthy, List.filter_cons, hA1, hA8, hA9, hB1]
  · by_cases hn : n = ""
    · subst hn
      simp [tsplLines, hno, notesTruthy, List.filter_cons, hA1, hA8, hA9, hB1]
    · have hmid : ("TEXT 30,95,\"0\",0,1,1,\"" ++ jsSlice (escQuotes n) 28 ++ "\"") ≠ "" :=
        append_ne_empty _ _ (append_ne_empty _ _ (by decide))
      simp [tsplLines, hno, notesTruthy, hn, List.filter_cons, hA1, hA8, hA9, hB1, hmid]

theorem tsplForSession_length (ld lt : String → String) (snap : SessionSnap) :
    (tsplForSession ld lt snap).length = if snap.notes = "" then 12 else 13 := by
  have hifz : (if snap.amount_oz = 0 then (0 : Rat) else snap.amount_oz)
      = snap.amount_oz := by
    split
    · rename_i hz
      exact hz.symm
    · rfl
  have hA1 : ("SIZE " ++ jsToFixed (2.625 : Rat) 3 ++ "," ++ jsToFixed (1.0 : Rat) 3) ≠ "" :=
    append_ne_empty _ _ (append_ne_empty _ _ (by decide))
  have hA8 : ("TEXT 30,20,\"0\",0,1,1,\"" ++ ld snap.timestamp ++ " " ++ lt snap.timestamp
      ++ "\"") ≠ "" :=
    append_ne_empty _ _ (append_ne_empty _ _ (append_ne_empty _ _
      (append_ne_empty _ _ (by decide))))
  have hA9 : ("TEXT 30,50,\"0\",0,1,2,\"" ++ jsToFixed snap.amount_oz 2 ++ " oz ("
      ++ jsToFixed (snap.amount_oz * mlRate) 0 ++ " ml)\"") ≠ "" :=
    append_ne_empty _ _ (append_ne_empty _ _ (append_ne_empty _ _
      (append_ne_empty _ _ (by decide))))
  have hB1 : ("TEXT 30,125,\"0\",0,1,1,\"Fridge: " ++ ld snap.use_by_fridge
      ++ "  Freezer: " ++ ld snap.use_by_frozen ++ "\"") ≠ "" :=
    append_ne_empty _ _ (append_ne_empty _ _ (append_ne_empty _ _
      (append_ne_empty _ _ (by decide))))
  simp only [tsplForSession]
  rw [hifz]
  by_cases hn : snap.notes = ""
  · simp [hn, List.filter_cons, hA1, hA8, hA9, hB1]
  · have hmid : ("TEXT 30,95,\"0\",0,1,1,\"" ++ jsSlice (escQuotes snap.notes) 28
        ++ "\"") ≠ "" :=
      append_ne_empty _ _ (append_ne_empty _ _ (by decide))
    simp [hn, List.filter_cons, hA1, hA8, hA9, hB1, hmid]

/-- C8: for every session the TSPL program is a fixed sequence of lines whose
count does not depend on the notes value, except that the notes TEXT line is
omitted entirely (never left as an empty line) when notes is falsy or
absent: 12 lines without truthy notes, 13 with, in both the server renderer
and the agent's renderer; with non-empty notes the program has exactly one
more line than without. -/
theorem claim8_tspl_line_count (ld lt : String → String) (s : Session)
    (snap : SessionSnap) :
    (tsplLines ld lt s).length = (if notesTruthy s.notes then 13 else 12) ∧
    "" ∉ tsplLines ld lt s ∧
    (tsplForSession ld lt snap).length = (if snap.notes = "" then 12 else 13) ∧
    "" ∉ tsplForSession ld lt snap ∧
    (∀ n : String, n ≠ "" →
      (tsplLines ld lt { s with notes := some n }).length
        = (tsplLines ld lt { s with notes := none }).length + 1) := by
  refine ⟨tsplLines_length ld lt s, ?_, tsplForSession_length ld lt snap, ?_, ?_⟩
  · simp only [tsplLines]
    exact not_mem_filter_ne_empty _
  · simp only [tsplForSession]
    exact not_mem_filter_ne_empty _
  · intro n hn
    rw [tsplLines_length, tsplLines_length]
    simp [notesTruthy, hn]

/-- Witness for C8: the sample session's label has exactly one more TSPL
line with notes `hi` than with no notes. -/
theorem claim8_witness :
    (tsplLines id id { sampleSession with notes := some "hi" }).length
      = (tsplLines id id { sampleSession with notes := none }).length + 1 :=
  (claim8_tspl_line_count id id sampleSession (snapOf sampleSession)).2.2.2.2
    "hi" (by decide)

/-- C7: for every session with non-negative `amount_oz = x`, the ml figure
rendered on the label equals `round(x * 29.5735)` in the server TSPL
renderer, in the PDF renderer, and in the agent's TSPL renderer, all through
the same `toFixed(0)` rounding rule. -/
theorem claim7_ml_rounding (ld lt ld2 lt2 ld3 lt3 : String → String)
    (s : Session) (snap : SessionSnap)
    (hoz : 0 ≤ ozOf s) (hsnap : 0 ≤ snap.amount_oz) :
    ("TEXT 30,50,\"0\",0,1,2,\"" ++ jsToFixed (ozOf s) 2 ++ " oz ("
        ++ toString (round (ozOf s * mlRate)) ++ " ml)\"") ∈ tsplLines ld lt s ∧
    ("  (" ++ toString (round (ozOf s * mlRate)) ++ " ml)") ∈ pdfTexts ld2 lt2 s ∧
    ("TEXT 30,50,\"0\",0,1,2,\"" ++ jsToFixed snap.amount_oz 2 ++ " oz ("
        ++ toString (round (snap.amount_oz * mlRate)) ++ " ml)\"")
      ∈ tsplForSession ld3 lt3 snap := by
  have hmlr : (0 : Rat) ≤ mlRate := by norm_num [mlRate]
  have h0 : 0 ≤ ozOf s * mlRate := mul_nonneg hoz hmlr
  have h0s : 0 ≤ snap.amount_oz * mlRate := mul_nonneg hsnap hmlr
  have hifz : (if snap.amount_oz = 0 then (0 : Rat) else snap.amount_oz)
      = snap.amount_oz := by
    split
    · rename_i hz
      exact hz.symm
    · rfl
  refine ⟨?_, ?_, ?_⟩
  · rw [← jsToFixed_zero_eq_round _ h0]
    simp only [tsplLines]
    refine List.mem_filter.mpr ⟨?_, ?_⟩
    · exact List.mem_cons_of_mem _ (List.mem_cons_of_mem _ (List.mem_cons_of_mem _
        (List.mem_cons_of_mem _ (List.mem_cons_of_mem _ (List.mem_cons_of_mem _
        (List.mem_cons_of_mem _ (List.mem_cons_of_mem _ (List.mem_cons_self _ _))))))))
    · exact decide_eq_true (append_ne_empty _ _ (append_ne_empty _ _
        (append_ne_empty _ _ (append_ne_empty _ _ (by decide)))))
  · rw [← jsToFixed_zero_eq_round _ h0]
    simp only [pdfTexts]
    exact List.mem_append_left _ (List.mem_append_left _
      (List.mem_cons_of_mem _ (List.mem_cons_of_mem _ (List.mem_cons_self _ _))))
  · rw [← jsToFixed_zero_eq_round _ h0s]
    simp only [tsplForSession]
    rw [hifz]
    refine List.mem_filter.mpr ⟨?_, ?_⟩
    · exact List.mem_cons_of_mem _ (List.mem_cons_of_mem _ (List.mem_cons_of_mem _
        (List.mem_cons_of_mem _ (List.mem_cons_of_mem _ (List.mem_cons_of_mem _
        (List.mem_cons_of_mem _ (List.mem_cons_of_mem _ (List.mem_cons_self _ _))))))))
    · exact decide_eq_true (append_ne_empty _ _ (append_ne_empty _ _
        (append_ne_empty _ _ (append_ne_empty _ _ (by decide)))))

/-- Witness for C7: with the sample session (4 oz) the server TSPL renderer
carries the rounded ml figure. -/
theorem claim7_witness :
    (0 : Rat) ≤ ozOf sampleSession ∧
    ("TEXT 30,50,\"0\",0,1,2,\"" ++ jsToFixed (ozOf sampleSession) 2 ++ " oz ("
        ++ toString (round (ozOf sampleSession * mlRate)) ++ " ml)\"")
      ∈ tsplLines id id sampleSession :=
  ⟨by decide,
   (claim7_ml_rounding id id id id id id sampleSession (snapOf sampleSession)
     (by decide) (by decide)).1⟩

/-- C2: against a store whose print jobs are ordered by creation time (as
enqueue produces), a claim request with a truthy printerId claims the oldest
queued job targeted at it, falling back to the oldest queued unassigned job
when none is targeted at it; a request with a falsy printerId claims only
the oldest unassigned queued job; and a job targeted at a printer is never
claimed by a requester with a different identity. -/
theorem claim2_claim_selection (printerId : Option String) (now : Nat) (store : Store)
    (hs : List.Pairwise (fun a b => a.createdAt ≤ b.createdAt) store.printJobs) :
    (∀ pid, printerId = some pid → pid ≠ "" →
      ((∃ j ∈ store.printJobs, eligTargeted pid j) →
        ∃ j0 ∈ store.printJobs, eligTargeted pid j0 ∧
          (claimNext printerId now store).1 = some (markClaimed now j0) ∧
          ∀ k ∈ store.printJobs, eligTargeted pid k → j0.createdAt ≤ k.createdAt) ∧
      ((∀ j ∈ store.printJobs, ¬ eligTargeted pid j) →
        (∃ j ∈ store.printJobs, eligUnassigned j) →
        ∃ j0 ∈ store.printJobs, eligUnassigned j0 ∧
          (claimNext printerId now store).1 = some (markClaimed now j0) ∧
          ∀ k ∈ store.printJobs, eligUnassigned k → j0.createdAt ≤ k.createdAt)) ∧
    (strTruthy printerId = false →
      ∀ j, (claimNext printerId now store).1 = some j →
        ∃ j0 ∈ store.printJobs, eligUnassigned j0 ∧ j = markClaimed now j0 ∧
          ∀ k ∈ store.printJobs, eligUnassigned k → j0.createdAt ≤ k.createdAt) ∧
    (∀ j P, (claimNext printerId now store).1 = some j → j.printerId = some P →
      printerId = some P) := by
  refine ⟨?_, ?_, ?_⟩
  · intro pid hpid hne
    subst hpid
    constructor
    · rintro ⟨je, hje, helig⟩
      rcases hr : (claimFirst (eligTargeted pid) now store.printJobs).1 with _ | jj
      · exact absurd helig (claimFirst_fst_none (eligTargeted pid) now
          store.printJobs hr je hje)
      · obtain ⟨j0, hmem, he0, hjj, hmin⟩ :=
          claimFirst_fst_some (eligTargeted pid) now store.printJobs jj hs hr
        refine ⟨j0, hmem, he0, ?_, hmin⟩
        simp only [claimNext, if_neg hne, hr, hjj]
    · intro hnone hex
      obtain ⟨je, hje, helig⟩ := hex
      have hrt : (claimFirst (eligTargeted pid) now store.printJobs).1 = none :=
        claimFirst_fst_none_of (eligTargeted pid) now store.printJobs hnone
      rcases hr : (claimFirst eligUnassigned now store.printJobs).1 with _ | jj
      · exact absurd helig (claimFirst_fst_none eligUnassigned now
          store.printJobs hr je hje)
      · obtain ⟨j0, hmem, he0, hjj, hmin⟩ :=
          claimFirst_fst_some eligUnassigned now store.printJobs jj hs hr
        refine ⟨j0, hmem, he0, ?_, hmin⟩
        simp only [claimNext, if_neg hne, hrt, hr, hjj]
  · intro hfalse j hj
    cases printerId with
    | none =>
      simp only [claimNext] at hj
      obtain ⟨j0, hmem, he0, hjj, hmin⟩ :=
        claimFirst_fst_some eligUnassigned now store.printJobs j hs hj
      exact ⟨j0, hmem, he0, hjj, hmin⟩
    | some pid =>
      have hpid : pid = "" := by simpa [strTruthy] using hfalse
      subst hpid
      simp only [claimNext, if_pos rfl] at hj
      obtain ⟨j0, hmem, he0, hjj, hmin⟩ :=
        claimFirst_fst_some eligUnassigned now store.printJobs j hs hj
      exact ⟨j0, hmem, he0, hjj, hmin⟩
  · intro j P hj hjP
    cases printerId with
    | none =>
      simp only [claimNext] at hj
      obtain ⟨j0, _, he0, hjj, -⟩ :=
        claimFirst_fst_some eligUnassigned now store.printJobs j hs hj
      exfalso
      have hnone : j.printerId = none := by rw [hjj]; exact he0.2
      rw [hnone] at hjP
      exact absurd hjP (by simp)
    | some pid =>
      by_cases hpe : pid = ""
      · subst hpe
        simp only [claimNext, if_pos rfl] at hj
        obtain ⟨j0, _, he0, hjj, -⟩ :=
          claimFirst_fst_some eligUnassigned now store.printJobs j hs hj
        exfalso
        have hnone : j.printerId = none := by rw [hjj]; exact he0.2
        rw [hnone] at hjP
        exact absurd hjP (by simp)
      · simp only [claimNext, if_neg hpe] at hj
        rcases hr : (claimFirst (eligTargeted pid) now store.printJobs).1 with _ | jj
        · rw [hr] at hj
          simp only at hj
          obtain ⟨j0, _, he0, hjj, -⟩ :=
            claimFirst_fst_some eligUnassigned now store.printJobs j hs hj
          exfalso
          have hnone : j.printerId = none := by rw [hjj]; exact he0.2
          rw [hnone] at hjP
          exact absurd hjP (by simp)
        · rw [hr] at hj
          simp only at hj
          have hjeq : jj = j := Option.some.inj hj
          obtain ⟨j0, _, he0, hjj, -⟩ :=
            claimFirst_fst_some (eligTargeted pid) now store.printJobs jj hs hr
          have hP : j.printerId = some pid := by rw [← hjeq, hjj]; exact he0.2
          rw [hP] at hjP
          obtain rfl : pid = P := Option.some.inj hjP
          rfl

/-- Witness for C2: against the sorted sample store, the agent identifying
as `p1` claims its targeted job `j1` even though the unassigned `j2` is also
queued. -/
theorem claim2_witness :
    ∃ j0 ∈ sampleStore.printJobs, eligTargeted "p1" j0 ∧
      (claimNext (some "p1") 5 sampleStore).1 = some (markClaimed 5 j0) ∧
      ∀ k ∈ sampleStore.printJobs, eligTargeted "p1" k
        → j0.createdAt ≤ k.createdAt :=
  ((claim2_claim_selection (some "p1") 5 sampleStore (by decide)).1
    "p1" rfl (by decide)).1 (by decide)

end BMT
